import Mathlib

/-
  Verification of the dotty play-to-earn economy core (Solana/Anchor programs
  `booty`, `treasure-deposit` and `game`), shallowly embedded in Lean 4.

  Machine integers (u64) are modelled as Nat together with the explicit bound
  u64Size = 2^64; Rust's `checked_add` becomes `chkAdd`, which returns `none`
  exactly when the u64 addition would overflow.  Fallible instruction handlers
  return `Except ErrorCode ...`; a failed instruction leaves all state
  unchanged (Solana transactions are atomic), which the sequence-running
  functions make explicit by keeping the pre-state on error.
-/

/-- 2 ^ 64, the number of values of a u64. -/
def u64Size : Nat := 18446744073709551616

/-- Rust's `u64::checked_add`: `some (a + b)` unless the sum overflows u64. -/
def chkAdd (a b : Nat) : Option Nat :=
  if a + b < u64Size then some (a + b) else none

-- ====================================================================
-- `game` program: tier calculation (src/solana/programs/game/src/lib.rs)
-- ====================================================================

namespace Game

/-- `calculate_tier` from game/src/lib.rs lines 362-374: convert the raw
amount (6 decimals) to whole tokens and classify into tiers 1-4,
highest band first. -/
def calculate_tier (amount : Nat) : Nat :=
  let tokens := amount / 1000000
  if tokens ≥ 100000 then 4
  else if tokens ≥ 10000 then 3
  else if tokens ≥ 1000 then 2
  else 1

/-- The tier function as the specification words it (section 4.4): tokens =
amount / 10^decimals with decimals = 6; tier 4 if tokens ≥ 100000, 3 if
≥ 10000, 2 if ≥ 1000, else 1, bands evaluated highest first. -/
def tierOfSpec (amount : Nat) : Nat :=
  let tokens := amount / 10 ^ 6
  if 100000 ≤ tokens then 4
  else if 10000 ≤ tokens then 3
  else if 1000 ≤ tokens then 2
  else 1

end Game

/-- C4: `calculate_tier` is total and deterministic (it is a Lean function),
agrees everywhere with the spec's band definition, is monotonically
non-decreasing in the amount, and takes the claimed values at the five
sample points. -/
theorem calculate_tier_spec :
    (∀ a, Game.calculate_tier a = Game.tierOfSpec a) ∧
    (∀ a b, a ≤ b → Game.calculate_tier a ≤ Game.calculate_tier b) ∧
    Game.calculate_tier 99999999 = 1 ∧
    Game.calculate_tier 100000000 = 1 ∧
    Game.calculate_tier 1000000000 = 2 ∧
    Game.calculate_tier 10000000000 = 3 ∧
    Game.calculate_tier 100000000000 = 4 := by
  refine ⟨?_, ?_, by decide, by decide, by decide, by decide, by decide⟩
  · intro a
    simp [Game.calculate_tier, Game.tierOfSpec]
  · intro a b hab
    have h : a / 1000000 ≤ b / 1000000 := Nat.div_le_div_right hab
    simp only [Game.calculate_tier]
    split_ifs <;> omega

/-- Witness for C4: the monotonicity conjunct applied at concrete inputs. -/
theorem calculate_tier_spec_witness :
    Game.calculate_tier 5000000000 ≤ Game.calculate_tier 20000000000 :=
  calculate_tier_spec.2.1 5000000000 20000000000 (by decide)

-- ====================================================================
-- `booty` program: supply ledger (src/solana/programs/booty/src/lib.rs)
-- ====================================================================

namespace Booty

/-- `BootyConfig` account (booty/src/lib.rs lines 177-185).  Pubkeys are
modelled as Nat. -/
structure BootyConfig where
  mint : Nat
  mint_authority : Nat
  total_mined : Nat
  total_burned : Nat
  max_supply : Option Nat
  bump : Nat
deriving DecidableEq

/-- Error codes of the booty program (booty/src/lib.rs lines 314-333). -/
inductive ErrorCode where
  | MaxSupplyExceeded
  | ArithmeticOverflow
  | Unauthorized
  | InvalidMint
  | InvalidTokenAccount
  | CannotDecreaseMaxSupply
deriving DecidableEq

/-- The `initialize` handler (lines 15-39): creates the config with both
accumulators zero and the caller as mint authority.  (The account-exists
re-init guard is the host's `init` semantics; initialization happens once.) -/
def initConfig (mint authority : Nat) (max_supply : Option Nat) (bump : Nat) :
    BootyConfig :=
  { mint := mint, mint_authority := authority, total_mined := 0,
    total_burned := 0, max_supply := max_supply, bump := bump }

/-- The tail of `mine_tokens` (lines 83-86): after the external `mint_to`
CPI, commit `total_mined += amount` with `checked_add`, else
`ArithmeticOverflow`. -/
def commitMine (c : BootyConfig) (amount : Nat) : Except ErrorCode BootyConfig :=
  match chkAdd c.total_mined amount with
  | none => .error .ArithmeticOverflow
  | some t => .ok { c with total_mined := t }

/-- `mine_tokens` handler (lines 44-92).  If a cap is set, `total_mined +
amount` is computed with `checked_add` (`ArithmeticOverflow` on overflow) and
required to be ≤ the cap (`MaxSupplyExceeded` otherwise); the external
`mint_to` CPI (assumed to succeed) is followed by the checked commit of
`total_mined`. -/
def mine_tokens (c : BootyConfig) (amount : Nat) : Except ErrorCode BootyConfig :=
  match c.max_supply with
  | some max_supply =>
    match chkAdd c.total_mined amount with
    | none => .error .ArithmeticOverflow
    | some new_total =>
      if new_total ≤ max_supply then commitMine c amount
      else .error .MaxSupplyExceeded
  | none => commitMine c amount

/-- `burn_tokens` handler (lines 96-127): after the external `burn` CPI
(authorized by the holder), commit `total_burned += amount` with
`checked_add`, else `ArithmeticOverflow`. -/
def burn_tokens (c : BootyConfig) (amount : Nat) : Except ErrorCode BootyConfig :=
  match chkAdd c.total_burned amount with
  | none => .error .ArithmeticOverflow
  | some t => .ok { c with total_burned := t }

/-- `update_authority` handler with its `UpdateAuthority` account constraint
(lines 131-144 and 295-308): the signer must equal `config.mint_authority`,
else `Unauthorized`; on success the authority is replaced unconditionally. -/
def update_authority (c : BootyConfig) (caller new_authority : Nat) :
    Except ErrorCode BootyConfig :=
  if c.mint_authority = caller then
    .ok { c with mint_authority := new_authority }
  else .error .Unauthorized

/-- `update_max_supply` handler with the same authority constraint (lines
148-169): when both the new and the current cap are `some`, the new one must
be ≥ the current one, else `CannotDecreaseMaxSupply`; in every other case the
new cap (including `none` and any finite cap replacing `none`) is stored
unconditionally. -/
def update_max_supply (c : BootyConfig) (caller : Nat)
    (new_max_supply : Option Nat) : Except ErrorCode BootyConfig :=
  if c.mint_authority = caller then
    match new_max_supply, c.max_supply with
    | some new_max, some current_max =>
      if new_max ≥ current_max then .ok { c with max_supply := some new_max }
      else .error .CannotDecreaseMaxSupply
    | _, _ => .ok { c with max_supply := new_max_supply }
  else .error .Unauthorized

/-- One instruction of the booty program (after initialization). -/
inductive Op where
  | mine (amount : Nat)
  | burn (amount : Nat)
  | updAuthority (caller new_authority : Nat)
  | updMaxSupply (caller : Nat) (new_max : Option Nat)
deriving DecidableEq

/-- Dispatch one instruction. -/
def step (c : BootyConfig) : Op → Except ErrorCode BootyConfig
  | .mine a => mine_tokens c a
  | .burn a => burn_tokens c a
  | .updAuthority caller na => update_authority c caller na
  | .updMaxSupply caller nm => update_max_supply c caller nm

/-- Run a sequence of instructions; a failed instruction leaves the state
unchanged (transactions are atomic, the host rolls back on error). -/
def run (c : BootyConfig) : List Op → BootyConfig
  | [] => c
  | op :: ops =>
    match step c op with
    | .ok c' => run c' ops
    | .error _ => run c ops

/-- A config is reachable when some initialization followed by some
instruction sequence produces it. -/
def Reachable (c : BootyConfig) : Prop :=
  ∃ mint authority max_supply bump ops,
    c = run (initConfig mint authority max_supply bump) ops

/-- The cap invariant of the spec: whenever a cap is set, total_mined is
within it. -/
def CapInv (c : BootyConfig) : Prop :=
  ∀ m, c.max_supply = some m → c.total_mined ≤ m

end Booty

-- Basic facts about the checked u64 addition, shared by the claims below.

theorem chkAdd_some {a b t : Nat} (h : chkAdd a b = some t) :
    t = a + b ∧ a + b < u64Size := by
  unfold chkAdd at h
  split at h
  · exact ⟨(Option.some_inj.mp h).symm, by assumption⟩
  · cases h

theorem chkAdd_none {a b : Nat} (h : chkAdd a b = none) : u64Size ≤ a + b := by
  unfold chkAdd at h
  split at h
  · cases h
  · omega

theorem chkAdd_of_lt {a b : Nat} (h : a + b < u64Size) :
    chkAdd a b = some (a + b) := by
  unfold chkAdd
  simp [h]

/-- A successful `commitMine` adds the amount to `total_mined` (which must
not overflow u64) and changes nothing else. -/
theorem commitMine_ok {c c' : Booty.BootyConfig} {a : Nat}
    (h : Booty.commitMine c a = .ok c') :
    c' = { c with total_mined := c.total_mined + a } ∧
      c.total_mined + a < u64Size := by
  unfold Booty.commitMine at h
  cases h' : chkAdd c.total_mined a with
  | none =>
    rw [h'] at h
    exact Except.noConfusion h
  | some t =>
    rw [h'] at h
    simp only [Except.ok.injEq] at h
    obtain ⟨ht, hlt⟩ := chkAdd_some h'
    subst ht
    exact ⟨h.symm, hlt⟩

/-- A successful mint preserves a set cap and keeps `total_mined` within it. -/
theorem mine_preserves_cap {c c' : Booty.BootyConfig} {M a : Nat}
    (hmax : c.max_supply = some M) (_hinv : c.total_mined ≤ M)
    (h : Booty.mine_tokens c a = .ok c') :
    c'.max_supply = some M ∧ c'.total_mined ≤ M := by
  unfold Booty.mine_tokens at h
  simp only [hmax] at h
  cases h' : chkAdd c.total_mined a with
  | none =>
    rw [h'] at h
    exact Except.noConfusion h
  | some t =>
    simp only [h'] at h
    obtain ⟨ht, _⟩ := chkAdd_some h'
    split at h
    · obtain ⟨hc', _⟩ := commitMine_ok h
      subst hc'
      refine ⟨hmax, ?_⟩
      dsimp only
      omega
    · exact Except.noConfusion h

/-- Under a set cap, running any list of mint instructions keeps the cap and
keeps `total_mined` within it. -/
theorem run_mine_cap (M : Nat) :
    ∀ (amounts : List Nat) (c : Booty.BootyConfig),
      c.max_supply = some M → c.total_mined ≤ M →
      (Booty.run c (amounts.map Booty.Op.mine)).max_supply = some M ∧
        (Booty.run c (amounts.map Booty.Op.mine)).total_mined ≤ M := by
  intro amounts
  induction amounts with
  | nil => intro c hmax hinv; exact ⟨hmax, hinv⟩
  | cons a rest ih =>
    intro c hmax hinv
    simp only [List.map, Booty.run, Booty.step]
    cases h : Booty.mine_tokens c a with
    | ok c' =>
      obtain ⟨hmax', hinv'⟩ := mine_preserves_cap hmax hinv h
      exact ih c' hmax' hinv'
    | error e => exact ih c hmax hinv

/-- C2 (confirmed): with a set cap `M` and `total_mined` within it, no
sequence of mint instructions ever pushes `total_mined` past `M`; a single
mint whose sum would exceed `M` fails with `ArithmeticOverflow` when the u64
addition overflows and with `MaxSupplyExceeded` otherwise, and a failed mint
leaves the config (hence `total_mined`) exactly as it was. -/
theorem booty_mint_never_exceeds_cap (c : Booty.BootyConfig) (M : Nat)
    (hmax : c.max_supply = some M) (hinv : c.total_mined ≤ M) :
    (∀ amounts : List Nat,
        (Booty.run c (amounts.map Booty.Op.mine)).total_mined ≤ M) ∧
    (∀ a, M < c.total_mined + a →
        Booty.mine_tokens c a =
          .error (if c.total_mined + a < u64Size
                  then Booty.ErrorCode.MaxSupplyExceeded
                  else Booty.ErrorCode.ArithmeticOverflow)) ∧
    (∀ a e, Booty.mine_tokens c a = .error e →
        Booty.run c [Booty.Op.mine a] = c) := by
  refine ⟨fun amounts => (run_mine_cap M amounts c hmax hinv).2, ?_, ?_⟩
  · intro a hgt
    unfold Booty.mine_tokens
    by_cases hov : c.total_mined + a < u64Size
    · simp only [hmax, chkAdd_of_lt hov]
      have hnle : ¬ c.total_mined + a ≤ M := by omega
      simp [hov, hnle]
    · have hnone : chkAdd c.total_mined a = none := by
        unfold chkAdd
        simp [hov]
      simp only [hmax, hnone]
      simp [hov]
  · intro a e h
    simp only [Booty.run, Booty.step, h]

/-- Witness for C2 at a concrete config and mint sequence. -/
theorem booty_mint_never_exceeds_cap_witness :
    (Booty.run (Booty.initConfig 0 7 (some 100) 1)
      ([60, 70].map Booty.Op.mine)).total_mined ≤ 100 :=
  (booty_mint_never_exceeds_cap (Booty.initConfig 0 7 (some 100) 1) 100
    rfl (by decide)).1 [60, 70]

-- C1: the spec's cap invariant over all reachable states fails, because
-- `update_max_supply` accepts any finite cap when the current cap is `none`,
-- even one below `total_mined`.

/-- The violating reachable config for C1: initialize with no cap, mine 1000
tokens, then set the cap to 10. -/
def capCexConfig : Booty.BootyConfig :=
  Booty.run (Booty.initConfig 0 7 none 255)
    [Booty.Op.mine 1000, Booty.Op.updMaxSupply 7 (some 10)]

/-- C1 (counterexample): a state reachable by init → mine 1000 →
update_max_supply (some 10) has a set cap of 10 and total_mined = 1000, so
the claimed invariant `total_mined ≤ max_supply` fails and update_max_supply
did not preserve it. -/
theorem booty_cap_invariant_violated :
    Booty.Reachable capCexConfig ∧
    capCexConfig.max_supply = some 10 ∧
    capCexConfig.total_mined = 1000 ∧
    ¬ Booty.CapInv capCexConfig := by
  refine ⟨⟨0, 7, none, 255,
    [Booty.Op.mine 1000, Booty.Op.updMaxSupply 7 (some 10)], rfl⟩,
    by decide, by decide, ?_⟩
  intro h
  exact absurd (h 10 (by decide)) (by decide)

/-- C1 (amended, confirmed): the cap invariant is preserved by every
successful instruction — mine, burn, update_authority, and update_max_supply
whenever the current cap is set (so also whenever the requested cap is
`none`); the only unguarded case is update_max_supply installing a finite cap
over a current cap of `none`. -/
theorem booty_cap_invariant_preserved (c c' : Booty.BootyConfig)
    (op : Booty.Op) (hinv : Booty.CapInv c)
    (hok : Booty.step c op = .ok c')
    (hsafe : ∀ caller nm, op = Booty.Op.updMaxSupply caller (some nm) →
      c.max_supply ≠ none) :
    Booty.CapInv c' := by
  cases op with
  | mine a =>
    intro m hm
    simp only [Booty.step] at hok
    cases hmax : c.max_supply with
    | none =>
      unfold Booty.mine_tokens at hok
      simp only [hmax] at hok
      obtain ⟨hc', _⟩ := commitMine_ok hok
      subst hc'
      simp only [hmax] at hm
      exact Option.noConfusion hm
    | some M =>
      obtain ⟨hmax', hinv'⟩ := mine_preserves_cap hmax (hinv M hmax) hok
      rw [hmax'] at hm
      cases hm
      exact hinv'
  | burn a =>
    intro m hm
    simp only [Booty.step] at hok
    unfold Booty.burn_tokens at hok
    cases h' : chkAdd c.total_burned a with
    | none =>
      rw [h'] at hok
      exact Except.noConfusion hok
    | some t =>
      simp only [h', Except.ok.injEq] at hok
      subst hok
      exact hinv m hm
  | updAuthority caller na =>
    intro m hm
    simp only [Booty.step] at hok
    unfold Booty.update_authority at hok
    split at hok
    · simp only [Except.ok.injEq] at hok
      subst hok
      exact hinv m hm
    · exact Except.noConfusion hok
  | updMaxSupply caller nm =>
    intro m hm
    simp only [Booty.step] at hok
    unfold Booty.update_max_supply at hok
    split at hok
    · cases nm with
      | none =>
        simp only [Except.ok.injEq] at hok
        subst hok
        exact Option.noConfusion hm
      | some newMax =>
        cases hcur : c.max_supply with
        | none => exact absurd hcur (hsafe caller newMax rfl)
        | some curMax =>
          simp only [hcur] at hok
          split at hok
          · simp only [Except.ok.injEq] at hok
            subst hok
            simp only [Option.some.injEq] at hm
            have hc := hinv curMax hcur
            dsimp only
            omega
          · exact Except.noConfusion hok
    · exact Except.noConfusion hok

/-- Witness for the amended C1: preservation applied to a concrete mint on a
capped config. -/
theorem booty_cap_invariant_preserved_witness :
    Booty.CapInv { mint := 0, mint_authority := 7, total_mined := 50,
                   total_burned := 0, max_supply := some 100, bump := 1 } := by
  refine booty_cap_invariant_preserved (Booty.initConfig 0 7 (some 100) 1) _
    (Booty.Op.mine 50) ?_ (by rfl) ?_
  · intro m hm
    simp_all [Booty.initConfig]
  · intro caller nm h
    cases h

/-- C8 (confirmed): for the current authority, `update_max_supply` rejects a
finite new cap strictly below a set current cap with
`CannotDecreaseMaxSupply` (leaving the config unchanged), accepts any finite
new cap ≥ the current cap, accepts `none` unconditionally, and accepts any
requested cap when the current cap is `none`. -/
theorem update_max_supply_correct (c : Booty.BootyConfig) (caller : Nat)
    (hauth : c.mint_authority = caller) :
    (∀ nm cm, c.max_supply = some cm → nm < cm →
        Booty.update_max_supply c caller (some nm) =
          .error Booty.ErrorCode.CannotDecreaseMaxSupply ∧
        Booty.run c [Booty.Op.updMaxSupply caller (some nm)] = c) ∧
    (∀ nm cm, c.max_supply = some cm → cm ≤ nm →
        Booty.update_max_supply c caller (some nm) =
          .ok { c with max_supply := some nm }) ∧
    (Booty.update_max_supply c caller none =
        .ok { c with max_supply := none }) ∧
    (∀ nm, c.max_supply = none →
        Booty.update_max_supply c caller nm =
          .ok { c with max_supply := nm }) := by
  refine ⟨?_, ?_, ?_, ?_⟩
  · intro nm cm hcur hlt
    have herr : Booty.update_max_supply c caller (some nm) =
        .error Booty.ErrorCode.CannotDecreaseMaxSupply := by
      unfold Booty.update_max_supply
      rw [hcur]
      simp [hauth]
      omega
    exact ⟨herr, by simp only [Booty.run, Booty.step, herr]⟩
  · intro nm cm hcur hle
    unfold Booty.update_max_supply
    rw [hcur]
    simp [hauth]
    omega
  · unfold Booty.update_max_supply
    cases hcur : c.max_supply <;> simp [hauth]
  · intro nm hcur
    unfold Booty.update_max_supply
    rw [hcur]
    cases nm <;> simp [hauth]

/-- Witness for C8: removing the cap on a concrete capped config succeeds. -/
theorem update_max_supply_correct_witness :
    Booty.update_max_supply (Booty.initConfig 0 7 (some 5) 1) 7 none =
      .ok { Booty.initConfig 0 7 (some 5) 1 with max_supply := none } :=
  (update_max_supply_correct (Booty.initConfig 0 7 (some 5) 1) 7 rfl).2.2.1

-- ====================================================================
-- `treasure-deposit` program (src/solana/programs/treasure-deposit/src/lib.rs)
-- ====================================================================

namespace TD

/-- `TreasureVault` account (treasure-deposit lines 133-139). -/
structure TreasureVault where
  authority : Nat
  total_deposits : Nat
  total_monsters_minted : Nat
  bump : Nat
deriving DecidableEq

/-- `DepositRecord` account (treasure-deposit lines 146-154). -/
structure DepositRecord where
  player : Nat
  amount : Nat
  timestamp : Int
  claimed : Bool
  monster_type : Nat
  bump : Nat
deriving DecidableEq

/-- `TokenWhitelist` account (treasure-deposit lines 161-166). -/
structure TokenWhitelist where
  token_mint : Nat
  enabled : Bool
  bump : Nat
deriving DecidableEq

/-- Error codes of the treasure-deposit program (lines 311-324), plus the
two host-level failure modes its handlers rely on: `OverflowAbort` models the
transaction abort when `checked_add(..).unwrap()` panics, and
`AccountAlreadyInUse` models the host's create-if-absent `init` failing
because the derived address is already occupied. -/
inductive ErrorCode where
  | InsufficientDeposit
  | AlreadyClaimed
  | Unauthorized
  | InvalidTokenAccount
  | OverflowAbort
  | AccountAlreadyInUse
deriving DecidableEq

/-- The `initialize` handler (lines 12-23): both counters start at zero and
the signer becomes the vault authority. -/
def initVault (authority bump : Nat) : TreasureVault :=
  { authority := authority, total_deposits := 0,
    total_monsters_minted := 0, bump := bump }

/-- `deposit_for_monster` handler (lines 27-69): requires
`amount ≥ 100_000_000` (100 tokens at 6 decimals) before the external
transfer, else `InsufficientDeposit`; then transfers, writes the deposit
record with `claimed = false` and `monster_type = (amount / 100_000_000) % 5`,
and commits `total_deposits += amount` via `checked_add(..).unwrap()`.  `now`
is the host clock value used as the record's timestamp. -/
def deposit_for_monster (vault : TreasureVault) (player amount : Nat)
    (now : Int) (bump : Nat) :
    Except ErrorCode (DepositRecord × TreasureVault) :=
  if amount < 100000000 then .error .InsufficientDeposit
  else
    let deposit_record : DepositRecord :=
      { player := player, amount := amount, timestamp := now,
        claimed := false, monster_type := amount / 100000000 % 5,
        bump := bump }
    match chkAdd vault.total_deposits amount with
    | none => .error .OverflowAbort
    | some t => .ok (deposit_record, { vault with total_deposits := t })

/-- `claim_monster` handler with its `ClaimMonster` account constraints
(lines 73-94 and 239-259): the record's player must equal the signer
(`Unauthorized`), the record must be unclaimed (`AlreadyClaimed`); then
`claimed := true` and `total_monsters_minted += 1` via
`checked_add(1).unwrap()`. -/
def claim_monster (vault : TreasureVault) (record : DepositRecord)
    (player : Nat) : Except ErrorCode (DepositRecord × TreasureVault) :=
  if record.player ≠ player then .error .Unauthorized
  else if record.claimed then .error .AlreadyClaimed
  else
    match chkAdd vault.total_monsters_minted 1 with
    | none => .error .OverflowAbort
    | some t => .ok ({ record with claimed := true },
                     { vault with total_monsters_minted := t })

/-- The program state seen by the whitelist instruction: the vault plus the
host's account store of whitelist entries, keyed by the mint pubkey the PDA
is derived from. -/
structure ProgramState where
  vault : TreasureVault
  whitelist : List (Nat × TokenWhitelist)
deriving DecidableEq

/-- Look up the whitelist entry stored at the address derived from a mint. -/
def findEntry (entries : List (Nat × TokenWhitelist)) (mint : Nat) :
    Option TokenWhitelist :=
  match entries with
  | [] => none
  | (k, e) :: rest => if k = mint then some e else findEntry rest mint

/-- `whitelist_token` with its `WhitelistToken` account context (lines
96-110 and 261-290).  Account processing performs the host's create-if-absent
`init` of the whitelist PDA derived from the mint (modelled from the spec's
host store semantics: it fails when an entry already occupies that derived
address) and checks `vault.authority == authority` (`Unauthorized`);
the handler then writes the entry with `enabled = true`. -/
def whitelist_token (st : ProgramState) (caller token_mint bump : Nat) :
    Except ErrorCode ProgramState :=
  if (findEntry st.whitelist token_mint).isSome then
    .error .AccountAlreadyInUse
  else if st.vault.authority ≠ caller then .error .Unauthorized
  else
    .ok { st with whitelist :=
      (token_mint,
        { token_mint := token_mint, enabled := true, bump := bump })
        :: st.whitelist }

end TD

/-- C3 (confirmed): `claim_monster` fails with `Unauthorized` when the caller
is not the record's depositor, fails with `AlreadyClaimed` when the record is
already claimed, and otherwise (when the claim counter does not overflow u64,
`checked_add(1).unwrap()` would abort there) marks the record claimed and
increments the vault's claim counter by exactly 1; consequently a second
claim of the record produced by a successful claim fails with
`AlreadyClaimed`, the counter having risen by exactly 1 in total. -/
theorem claim_monster_correct (vault : TD.TreasureVault)
    (record : TD.DepositRecord) (player : Nat) :
    (record.player ≠ player →
        TD.claim_monster vault record player =
          .error TD.ErrorCode.Unauthorized) ∧
    (record.player = player → record.claimed = true →
        TD.claim_monster vault record player =
          .error TD.ErrorCode.AlreadyClaimed) ∧
    (record.player = player → record.claimed = false →
        vault.total_monsters_minted + 1 < u64Size →
        TD.claim_monster vault record player =
          .ok ({ record with claimed := true },
               { vault with total_monsters_minted :=
                   vault.total_monsters_minted + 1 })) ∧
    (∀ r1 v1, TD.claim_monster vault record player = .ok (r1, v1) →
        TD.claim_monster v1 r1 player =
          .error TD.ErrorCode.AlreadyClaimed ∧
        v1.total_monsters_minted = vault.total_monsters_minted + 1) := by
  refine ⟨?_, ?_, ?_, ?_⟩
  · intro h
    simp [TD.claim_monster, h]
  · intro h hcl
    simp [TD.claim_monster, h, hcl]
  · intro h hcl hov
    simp [TD.claim_monster, h, hcl, chkAdd_of_lt hov]
  · intro r1 v1 h
    unfold TD.claim_monster at h
    split at h
    · exact Except.noConfusion h
    · split at h
      · exact Except.noConfusion h
      · rename_i hne hcl
        cases h' : chkAdd vault.total_monsters_minted 1 with
        | none =>
          rw [h'] at h
          exact Except.noConfusion h
        | some t =>
          rw [h'] at h
          simp only [Except.ok.injEq, Prod.mk.injEq] at h
          obtain ⟨hr1, hv1⟩ := h
          obtain ⟨ht, _⟩ := chkAdd_some h'
          subst hr1
          subst hv1
          constructor
          · simp [TD.claim_monster, hne]
          · dsimp only
            omega

/-- Witness for C3: a concrete fresh record claimed by its depositor. -/
theorem claim_monster_correct_witness :
    TD.claim_monster (TD.initVault 7 0)
        { player := 3, amount := 100000000, timestamp := 0, claimed := false,
          monster_type := 1, bump := 0 } 3 =
      .ok ({ player := 3, amount := 100000000, timestamp := 0,
             claimed := true, monster_type := 1, bump := 0 },
           { authority := 7, total_deposits := 0,
             total_monsters_minted := 1, bump := 0 }) :=
  (claim_monster_correct (TD.initVault 7 0)
    { player := 3, amount := 100000000, timestamp := 0, claimed := false,
      monster_type := 1, bump := 0 } 3).2.2.1 rfl rfl (by decide)

-- ====================================================================
-- `game` program: treasure hiding (src/solana/programs/game/src/lib.rs)
-- ====================================================================

namespace Game

/-- `TreasureVault` account of the game program (lines 381-387). -/
structure TreasureVault where
  authority : Nat
  total_hidden : Nat
  total_claimed : Nat
  bump : Nat
deriving DecidableEq

/-- `TreasureRecord` account (lines 394-402). -/
structure TreasureRecord where
  player : Nat
  amount : Nat
  timestamp : Int
  claimed : Bool
  tier : Nat
  bump : Nat
deriving DecidableEq

/-- Error codes of the game program (lines 751-773), plus the host-level
failure modes: `OverflowAbort` models the abort when `checked_add(..).unwrap()`
panics, and `DuplicateDeposit` models the host's create-if-absent `init` of
the treasure-record PDA failing because the derived (player, treasure_id)
address is already occupied — the spec names that failure `DuplicateDeposit`. -/
inductive ErrorCode where
  | InsufficientTreasure
  | AlreadyClaimed
  | Unauthorized
  | InvalidTokenAccount
  | ArithmeticOverflow
  | MaxSupplyExceeded
  | InvalidBootyMint
  | OverflowAbort
  | DuplicateDeposit
deriving DecidableEq

/-- `hide_treasure` handler (lines 105-147): requires
`amount ≥ 100_000_000` before the external transfer, else
`InsufficientTreasure`; then transfers, writes the treasure record with
`claimed = false` and `tier = calculate_tier amount`, and commits
`total_hidden += amount` via `checked_add(..).unwrap()`. -/
def hide_treasure (vault : TreasureVault) (player amount : Nat)
    (treasure_id : Int) (bump : Nat) :
    Except ErrorCode (TreasureRecord × TreasureVault) :=
  if amount < 100000000 then .error .InsufficientTreasure
  else
    let treasure_record : TreasureRecord :=
      { player := player, amount := amount, timestamp := treasure_id,
        claimed := false, tier := calculate_tier amount, bump := bump }
    match chkAdd vault.total_hidden amount with
    | none => .error .OverflowAbort
    | some t => .ok (treasure_record, { vault with total_hidden := t })

/-- The state a hide-treasure transaction touches: the vault account, the
host's store of treasure-record PDAs keyed by (player, treasure_id), and the
vault's external token custody balance (the destination of the transfer
CPI). -/
structure VaultState where
  vault : TreasureVault
  records : List ((Nat × Int) × TreasureRecord)
  vaultBalance : Nat
deriving DecidableEq

/-- Look up the treasure record stored at the address derived from
(player, treasure_id). -/
def findRecord (recs : List ((Nat × Int) × TreasureRecord))
    (k : Nat × Int) : Option TreasureRecord :=
  match recs with
  | [] => none
  | (k', r) :: rest => if k' = k then some r else findRecord rest k

/-- The `initialize_vault` handler (lines 90-101) together with an empty
host store and empty custody balance. -/
def initVaultState (authority bump : Nat) : VaultState :=
  { vault := { authority := authority, total_hidden := 0,
               total_claimed := 0, bump := bump },
    records := [], vaultBalance := 0 }

/-- A whole hide-treasure transaction (`HideTreasure` context, lines
514-557, plus the handler).  Account processing performs the host's
create-if-absent `init` of the treasure-record PDA derived from
(player, treasure_id) — modelled from the spec's host store semantics, it
fails with `DuplicateDeposit` when the address is occupied; the handler then
runs, and on success the transferred amount sits in the vault's custody
balance and the new record occupies its derived address. -/
def hideTreasureTx (st : VaultState) (player amount : Nat)
    (treasure_id : Int) (bump : Nat) : Except ErrorCode VaultState :=
  if (findRecord st.records (player, treasure_id)).isSome then
    .error .DuplicateDeposit
  else
    match hide_treasure st.vault player amount treasure_id bump with
    | .error e => .error e
    | .ok (r, v') =>
      .ok { vault := v',
            records := ((player, treasure_id), r) :: st.records,
            vaultBalance := st.vaultBalance + amount }

/-- The state after a hide-treasure transaction: a failed transaction is
rolled back whole by the host, leaving the pre-state. -/
def applyHideTreasure (st : VaultState) (player amount : Nat)
    (treasure_id : Int) (bump : Nat) : VaultState :=
  match hideTreasureTx st player amount treasure_id bump with
  | .ok st' => st'
  | .error _ => st

end Game

/-- `calculate_tier` always lands in the band {1, 2, 3, 4}. -/
theorem calculate_tier_range (a : Nat) :
    1 ≤ Game.calculate_tier a ∧ Game.calculate_tier a ≤ 4 := by
  simp only [Game.calculate_tier]
  split_ifs <;> omega

/-- C5 (counterexample): a successful `deposit_for_monster` of 500_000_000
(well above the minimum) stores (500_000_000 / 10^8) % 5 = 0 in the record's
classification field `monster_type` — not the tier function's value (which
is 1 here) and not a value in {1..4}. -/
theorem deposit_monster_type_not_tier :
    TD.deposit_for_monster (TD.initVault 7 0) 3 500000000 0 0 =
      .ok ({ player := 3, amount := 500000000, timestamp := 0,
             claimed := false, monster_type := 0, bump := 0 },
           { authority := 7, total_deposits := 500000000,
             total_monsters_minted := 0, bump := 0 }) ∧
    Game.calculate_tier 500000000 = 1 ∧ ¬ 1 ≤ (0 : Nat) :=
  ⟨rfl, by decide, by decide⟩

/-- C5 (amended, confirmed): every successful `hide_treasure` stores
`calculate_tier amount` in the record's `tier` field, a value in {1..4}, and
adds the amount to the vault's `total_hidden` with overflow-checked
addition; every successful `deposit_for_monster` of the treasure-deposit
program instead stores `(amount / 10^8) % 5` — a value in {0..4} — in its
classification field `monster_type`, and adds the amount to
`total_deposits` with overflow-checked addition. -/
theorem deposit_tier_fields_correct :
    (∀ (v : Game.TreasureVault) (p a : Nat) (tid : Int) (b : Nat) r v',
        Game.hide_treasure v p a tid b = .ok (r, v') →
        r.tier = Game.calculate_tier a ∧ 1 ≤ r.tier ∧ r.tier ≤ 4 ∧
        v'.total_hidden = v.total_hidden + a ∧
        v.total_hidden + a < u64Size) ∧
    (∀ (v : TD.TreasureVault) (p a : Nat) (now : Int) (b : Nat) r v',
        TD.deposit_for_monster v p a now b = .ok (r, v') →
        r.monster_type = a / 100000000 % 5 ∧ r.monster_type ≤ 4 ∧
        v'.total_deposits = v.total_deposits + a ∧
        v.total_deposits + a < u64Size) := by
  constructor
  · intro v p a tid b r v' h
    unfold Game.hide_treasure at h
    split at h
    · exact Except.noConfusion h
    · cases h' : chkAdd v.total_hidden a with
      | none =>
        simp only [h'] at h
        exact Except.noConfusion h
      | some t =>
        simp only [h', Except.ok.injEq, Prod.mk.injEq] at h
        obtain ⟨hr, hv⟩ := h
        obtain ⟨ht, hlt⟩ := chkAdd_some h'
        subst hr
        subst hv
        obtain ⟨hlo, hhi⟩ := calculate_tier_range a
        exact ⟨rfl, hlo, hhi, by dsimp only; omega, hlt⟩
  · intro v p a now b r v' h
    unfold TD.deposit_for_monster at h
    split at h
    · exact Except.noConfusion h
    · cases h' : chkAdd v.total_deposits a with
      | none =>
        simp only [h'] at h
        exact Except.noConfusion h
      | some t =>
        simp only [h', Except.ok.injEq, Prod.mk.injEq] at h
        obtain ⟨hr, hv⟩ := h
        obtain ⟨ht, hlt⟩ := chkAdd_some h'
        subst hr
        subst hv
        refine ⟨rfl, by dsimp only; omega, by dsimp only; omega, hlt⟩

/-- Witness for the amended C5: a concrete successful hide_treasure. -/
theorem deposit_tier_fields_correct_witness :
    (⟨{ player := 3, amount := 2000000000, timestamp := 1, claimed := false,
        tier := 2, bump := 0 },
      { authority := 7, total_hidden := 2000000000, total_claimed := 0,
        bump := 0 }⟩ : Game.TreasureRecord × Game.TreasureVault).1.tier =
      Game.calculate_tier 2000000000 :=
  (deposit_tier_fields_correct.1
    { authority := 7, total_hidden := 0, total_claimed := 0, bump := 0 }
    3 2000000000 1 0
    { player := 3, amount := 2000000000, timestamp := 1, claimed := false,
      tier := 2, bump := 0 }
    { authority := 7, total_hidden := 2000000000, total_claimed := 0,
      bump := 0 } rfl).1

/-- A hide-treasure transaction on a fresh (player, treasure_id) address with
a sufficient amount and no counter overflow succeeds and produces exactly the
state the handler describes. -/
theorem hideTreasureTx_fresh_ok {auth th tc vbmp : Nat}
    {recs : List ((Nat × Int) × Game.TreasureRecord)} {bal p a : Nat}
    {tid : Int} {b : Nat}
    (hfresh : Game.findRecord recs (p, tid) = none)
    (hmin : 100000000 ≤ a) (hov : th + a < u64Size) :
    Game.hideTreasureTx ⟨⟨auth, th, tc, vbmp⟩, recs, bal⟩ p a tid b =
      .ok ⟨⟨auth, th + a, tc, vbmp⟩,
           ((p, tid), ⟨p, a, tid, false, Game.calculate_tier a, b⟩) :: recs,
           bal + a⟩ := by
  unfold Game.hideTreasureTx
  rw [show Game.VaultState.records ⟨⟨auth, th, tc, vbmp⟩, recs, bal⟩ = recs
    from rfl, hfresh]
  have hn : ¬ a < 100000000 := by omega
  simp [Game.hide_treasure, hn, chkAdd_of_lt hov]

/-- C6 (confirmed): starting from a freshly initialized vault, a first
deposit (hide_treasure) with nonce n1 succeeds; a second deposit with the
same (depositor, nonce) pair fails with `DuplicateDeposit` and changes
nothing; a second deposit with a different nonce succeeds, after which the
vault's deposited total (and its custody balance) equals the sum of the two
amounts, and the first record is untouched throughout. -/
theorem duplicate_deposit_behavior (auth bump p a1 a2 : Nat) (n1 n2 : Int)
    (h1 : 100000000 ≤ a1) (h2 : 100000000 ≤ a2)
    (hsum : a1 + a2 < u64Size) (hne : n1 ≠ n2) :
    ∃ st1 st2 : Game.VaultState,
      Game.hideTreasureTx (Game.initVaultState auth bump) p a1 n1 bump =
        .ok st1 ∧
      Game.hideTreasureTx st1 p a2 n1 bump =
        .error Game.ErrorCode.DuplicateDeposit ∧
      Game.applyHideTreasure st1 p a2 n1 bump = st1 ∧
      Game.hideTreasureTx st1 p a2 n2 bump = .ok st2 ∧
      st1.vault.total_hidden = a1 ∧
      st2.vault.total_hidden = a1 + a2 ∧
      st2.vaultBalance = a1 + a2 ∧
      Game.findRecord st2.records (p, n1) =
        Game.findRecord st1.records (p, n1) := by
  have hne' : n2 ≠ n1 := fun h => hne h.symm
  refine ⟨⟨⟨auth, 0 + a1, 0, bump⟩,
      [((p, n1), ⟨p, a1, n1, false, Game.calculate_tier a1, bump⟩)],
      0 + a1⟩,
    ⟨⟨auth, 0 + a1 + a2, 0, bump⟩,
      ((p, n2), ⟨p, a2, n2, false, Game.calculate_tier a2, bump⟩) ::
        [((p, n1), ⟨p, a1, n1, false, Game.calculate_tier a1, bump⟩)],
      0 + a1 + a2⟩, ?_, ?_, ?_, ?_, ?_, ?_, ?_, ?_⟩
  · rw [show Game.initVaultState auth bump = ⟨⟨auth, 0, 0, bump⟩, [], 0⟩
      from rfl]
    exact hideTreasureTx_fresh_ok rfl h1 (by omega)
  · unfold Game.hideTreasureTx
    simp [Game.findRecord]
  · unfold Game.applyHideTreasure Game.hideTreasureTx
    simp [Game.findRecord]
  · exact hideTreasureTx_fresh_ok (by simp [Game.findRecord, hne]) h2
      (by omega)
  · dsimp only
    omega
  · dsimp only
    omega
  · dsimp only
    omega
  · simp [Game.findRecord, hne']

/-- Witness for C6 at concrete nonces and amounts. -/
theorem duplicate_deposit_behavior_witness :
    ∃ st1 st2 : Game.VaultState,
      Game.hideTreasureTx (Game.initVaultState 7 0) 3 100000000 1 0 =
        .ok st1 ∧
      Game.hideTreasureTx st1 3 200000000 1 0 =
        .error Game.ErrorCode.DuplicateDeposit ∧
      Game.applyHideTreasure st1 3 200000000 1 0 = st1 ∧
      Game.hideTreasureTx st1 3 200000000 2 0 = .ok st2 ∧
      st1.vault.total_hidden = 100000000 ∧
      st2.vault.total_hidden = 100000000 + 200000000 ∧
      st2.vaultBalance = 100000000 + 200000000 ∧
      Game.findRecord st2.records (3, 1) =
        Game.findRecord st1.records (3, 1) :=
  duplicate_deposit_behavior 7 0 3 100000000 200000000 1 2
    (by decide) (by decide) (by decide) (by decide)

/-- C7 (confirmed): in both deposit handlers the fixed-minimum check
(100 whole units = 100_000_000 base units at 6 decimals) runs first: any
smaller amount fails with `InsufficientDeposit` / `InsufficientTreasure`,
and at transaction level nothing changes — no record, no vault field, no
custody balance; any amount at or above the minimum passes the check (the
operation never returns the insufficiency error). -/
theorem minimum_deposit_check :
    (∀ (v : TD.TreasureVault) (p a : Nat) (now : Int) (b : Nat),
        a < 100000000 →
        TD.deposit_for_monster v p a now b =
          .error TD.ErrorCode.InsufficientDeposit) ∧
    (∀ (v : Game.TreasureVault) (p a : Nat) (tid : Int) (b : Nat),
        a < 100000000 →
        Game.hide_treasure v p a tid b =
          .error Game.ErrorCode.InsufficientTreasure) ∧
    (∀ (st : Game.VaultState) (p a : Nat) (tid : Int) (b : Nat),
        a < 100000000 →
        Game.findRecord st.records (p, tid) = none →
        Game.hideTreasureTx st p a tid b =
          .error Game.ErrorCode.InsufficientTreasure ∧
        Game.applyHideTreasure st p a tid b = st) ∧
    (∀ (v : TD.TreasureVault) (p a : Nat) (now : Int) (b : Nat),
        100000000 ≤ a →
        TD.deposit_for_monster v p a now b ≠
          .error TD.ErrorCode.InsufficientDeposit) ∧
    (∀ (v : Game.TreasureVault) (p a : Nat) (tid : Int) (b : Nat),
        100000000 ≤ a →
        Game.hide_treasure v p a tid b ≠
          .error Game.ErrorCode.InsufficientTreasure) := by
  refine ⟨?_, ?_, ?_, ?_, ?_⟩
  · intro v p a now b h
    simp [TD.deposit_for_monster, h]
  · intro v p a tid b h
    simp [Game.hide_treasure, h]
  · intro st p a tid b h hfresh
    have herr : Game.hideTreasureTx st p a tid b =
        .error Game.ErrorCode.InsufficientTreasure := by
      unfold Game.hideTreasureTx
      rw [hfresh]
      simp [Game.hide_treasure, h]
    exact ⟨herr, by simp [Game.applyHideTreasure, herr]⟩
  · intro v p a now b h
    unfold TD.deposit_for_monster
    have hn : ¬ a < 100000000 := by omega
    cases h' : chkAdd v.total_deposits a with
    | none => simp [hn, h']
    | some t => simp [hn, h']
  · intro v p a tid b h
    unfold Game.hide_treasure
    have hn : ¬ a < 100000000 := by omega
    cases h' : chkAdd v.total_hidden a with
    | none => simp [hn, h']
    | some t => simp [hn, h']

/-- Witness for C7: a deposit of 99_999_999 base units is rejected. -/
theorem minimum_deposit_check_witness :
    TD.deposit_for_monster (TD.initVault 7 0) 3 99999999 0 0 =
      .error TD.ErrorCode.InsufficientDeposit :=
  minimum_deposit_check.1 (TD.initVault 7 0) 3 99999999 0 0 (by decide)

-- C9: the whitelist PDA is declared `init` (create-only), so re-running
-- whitelist_token for the same mint does not idempotently succeed.

/-- The program state before the first whitelist call: vault authority 7,
empty whitelist store. -/
def wlState0 : TD.ProgramState :=
  { vault := TD.initVault 7 0, whitelist := [] }

/-- The program state after whitelisting mint 42. -/
def wlState1 : TD.ProgramState :=
  { vault := TD.initVault 7 0,
    whitelist := [(42, { token_mint := 42, enabled := true, bump := 0 })] }

/-- C9 (counterexample): the authorized first whitelist call for mint 42
succeeds, but running the same call again fails — the create-if-absent
`init` of the entry's derived address finds it occupied — instead of
idempotently succeeding as the claim states. -/
theorem whitelist_rerun_fails :
    TD.whitelist_token wlState0 7 42 0 = .ok wlState1 ∧
    TD.whitelist_token wlState1 7 42 0 =
      .error TD.ErrorCode.AccountAlreadyInUse ∧
    TD.findEntry wlState1.whitelist 42 =
      some { token_mint := 42, enabled := true, bump := 0 } :=
  ⟨rfl, rfl, rfl⟩

/-- C9 (amended, confirmed): when no entry occupies the mint's derived
address, `whitelist_token` fails with `Unauthorized` for every caller other
than the vault's authority and succeeds for the authority, writing the entry
with `enabled = true`; when an entry already exists, the call fails with the
host's account-already-in-use error and the state is unchanged — re-running
is not an idempotent success. -/
theorem whitelist_token_correct (st : TD.ProgramState)
    (caller mint bump : Nat) :
    (TD.findEntry st.whitelist mint = none → st.vault.authority ≠ caller →
        TD.whitelist_token st caller mint bump =
          .error TD.ErrorCode.Unauthorized) ∧
    (TD.findEntry st.whitelist mint = none → st.vault.authority = caller →
        TD.whitelist_token st caller mint bump =
          .ok { st with whitelist :=
            (mint, { token_mint := mint, enabled := true, bump := bump })
              :: st.whitelist } ∧
        TD.findEntry
          ((mint, { token_mint := mint, enabled := true, bump := bump })
            :: st.whitelist) mint =
          some { token_mint := mint, enabled := true, bump := bump }) ∧
    (∀ e, TD.findEntry st.whitelist mint = some e →
        TD.whitelist_token st caller mint bump =
          .error TD.ErrorCode.AccountAlreadyInUse) := by
  refine ⟨?_, ?_, ?_⟩
  · intro hfresh hauth
    simp [TD.whitelist_token, hfresh, hauth]
  · intro hfresh hauth
    constructor
    · simp [TD.whitelist_token, hfresh, hauth]
    · simp [TD.findEntry]
  · intro e he
    simp [TD.whitelist_token, he]

/-- Witness for the amended C9: an unauthorized caller is rejected on a
fresh mint. -/
theorem whitelist_token_correct_witness :
    TD.whitelist_token wlState0 8 42 0 =
      .error TD.ErrorCode.Unauthorized :=
  (whitelist_token_correct wlState0 8 42 0).1 rfl (by decide)

-- ====================================================================
-- C10: the supply ledger together with the external token ledger
-- ====================================================================

/-- The supply ledger together with the circulating balance held on the
external token ledger (the sum of all holders' balances of the mint).  The
external service only ever transfers balances that were actually minted:
`mint_to` adds to the circulating balance, `burn` removes from it, transfers
conserve it. -/
structure SupplySys where
  config : Booty.BootyConfig
  circulating : Nat
deriving DecidableEq

/-- Supply-ledger instructions considered by C10. -/
inductive SupplyOp where
  | mine (amount : Nat)
  | burn (amount : Nat)
deriving DecidableEq

/-- One instruction against the ledger-plus-token-service system.  A mint
runs `mine_tokens`; its successful `mint_to` CPI adds the amount to the
circulating balance.  A burn's external `burn` CPI is authorized by the
holder and fails unless the holder's balance covers the amount; every balance
is at most the circulating total, so a successful burn satisfies
`amount ≤ circulating`, which the model imposes as the CPI's success
condition before `burn_tokens` commits `total_burned`. -/
def supplyStep (s : SupplySys) : SupplyOp → Except Booty.ErrorCode SupplySys
  | .mine a =>
    match Booty.mine_tokens s.config a with
    | .error e => .error e
    | .ok c' => .ok { config := c', circulating := s.circulating + a }
  | .burn a =>
    if a ≤ s.circulating then
      match Booty.burn_tokens s.config a with
      | .error e => .error e
      | .ok c' => .ok { config := c', circulating := s.circulating - a }
    else .error .InvalidTokenAccount

/-- Run a list of instructions; a failed instruction rolls back whole. -/
def supplyRun (s : SupplySys) : List SupplyOp → SupplySys
  | [] => s
  | op :: ops =>
    match supplyStep s op with
    | .ok s' => supplyRun s' ops
    | .error _ => supplyRun s ops

/-- The system right after `initialize`: both accumulators zero, nothing in
circulation. -/
def initSupply (mint authority : Nat) (max_supply : Option Nat)
    (bump : Nat) : SupplySys :=
  { config := Booty.initConfig mint authority max_supply bump,
    circulating := 0 }

/-- A successful mint adds the amount to `total_mined` and changes no other
config field. -/
theorem mine_tokens_ok {c c' : Booty.BootyConfig} {a : Nat}
    (h : Booty.mine_tokens c a = .ok c') :
    c' = { c with total_mined := c.total_mined + a } := by
  unfold Booty.mine_tokens at h
  cases hmax : c.max_supply with
  | none =>
    rw [hmax] at h
    exact hmax ▸ (commitMine_ok h).1
  | some M =>
    rw [hmax] at h
    cases h' : chkAdd c.total_mined a with
    | none =>
      rw [h'] at h
      exact Except.noConfusion h
    | some t =>
      simp only [h'] at h
      split at h
      · exact hmax ▸ (commitMine_ok h).1
      · exact Except.noConfusion h

/-- A successful burn adds the amount to `total_burned` and changes no other
config field. -/
theorem burn_tokens_ok {c c' : Booty.BootyConfig} {a : Nat}
    (h : Booty.burn_tokens c a = .ok c') :
    c' = { c with total_burned := c.total_burned + a } := by
  unfold Booty.burn_tokens at h
  cases h' : chkAdd c.total_burned a with
  | none =>
    rw [h'] at h
    exact Except.noConfusion h
  | some t =>
    simp only [h', Except.ok.injEq] at h
    obtain ⟨ht, _⟩ := chkAdd_some h'
    subst ht
    exact h.symm

/-- Conservation: each successful instruction preserves
`total_burned + circulating = total_mined`. -/
theorem supplyStep_conserves {s s' : SupplySys} {op : SupplyOp}
    (hinv : s.config.total_burned + s.circulating = s.config.total_mined)
    (h : supplyStep s op = .ok s') :
    s'.config.total_burned + s'.circulating = s'.config.total_mined := by
  cases op with
  | mine a =>
    simp only [supplyStep] at h
    cases hm : Booty.mine_tokens s.config a with
    | error e =>
      rw [hm] at h
      exact Except.noConfusion h
    | ok c' =>
      simp only [hm, Except.ok.injEq] at h
      subst h
      have hc := mine_tokens_ok hm
      subst hc
      dsimp only
      omega
  | burn a =>
    simp only [supplyStep] at h
    split at h
    · cases hb : Booty.burn_tokens s.config a with
      | error e =>
        rw [hb] at h
        exact Except.noConfusion h
      | ok c' =>
        simp only [hb, Except.ok.injEq] at h
        subst h
        have hc := burn_tokens_ok hb
        subst hc
        dsimp only
        omega
    · exact Except.noConfusion h

/-- Conservation holds along any run. -/
theorem supplyRun_conserves :
    ∀ (ops : List SupplyOp) (s : SupplySys),
      s.config.total_burned + s.circulating = s.config.total_mined →
      (supplyRun s ops).config.total_burned + (supplyRun s ops).circulating =
        (supplyRun s ops).config.total_mined := by
  intro ops
  induction ops with
  | nil => intro s hinv; exact hinv
  | cons op rest ih =>
    intro s hinv
    simp only [supplyRun]
    cases h : supplyStep s op with
    | ok s' => exact ih s' (supplyStep_conserves hinv h)
    | error e => exact ih s hinv

/-- C10 (confirmed): in every state reachable from initialization by mint
and burn instructions — with the external token service only burning
balances that were actually minted — `total_burned ≤ total_mined`, and the
net-supply value `total_mined − total_burned` both handlers log with
unchecked u64 subtraction is exactly the circulating balance, so the
subtraction never underflows. -/
theorem net_supply_no_underflow (mint authority bump : Nat)
    (max_supply : Option Nat) (ops : List SupplyOp) :
    (supplyRun (initSupply mint authority max_supply bump)
        ops).config.total_burned ≤
      (supplyRun (initSupply mint authority max_supply bump)
        ops).config.total_mined ∧
    (supplyRun (initSupply mint authority max_supply bump)
        ops).config.total_mined -
      (supplyRun (initSupply mint authority max_supply bump)
        ops).config.total_burned =
      (supplyRun (initSupply mint authority max_supply bump)
        ops).circulating := by
  have h := supplyRun_conserves ops (initSupply mint authority max_supply bump)
    rfl
  omega

